import Mathlib

/-!
Shallow embedding of the movement-resolution core and AI state machine of the
RustRoguelike repository: `roguelike_core/src/movement.rs` and
`roguelike_core/src/ai.rs`.  The helper modules `utils.rs`, `map.rs` and
`constants.rs` are not part of the sources; where a definition from one of
them is needed it is modelled from the specification and marked
`Modelled from the spec:` in its doc comment.  Machine integers (`i32`) are
modelled as `Int`: none of the verified code paths can overflow 32 bits on the
inputs considered, so wrap-around is not modelled.
-/

/-- Grid position, `Pos` (an `euclid` integer point in the source): integer
`(x, y)` coordinates. -/
structure Pos where
  x : Int
  y : Int
deriving DecidableEq

/-- `Pos::new`. -/
def Pos.new (x y : Int) : Pos := ⟨x, y⟩

/-- Entity identifiers (`EntityId` / `ObjectId` in the source). -/
def EntityId : Type := Nat

instance : DecidableEq EntityId := instDecidableEqNat

instance (n : Nat) : OfNat EntityId n := ⟨n⟩

/-- Modelled from the spec: `utils.rs` is absent from the sources.  Pointwise
addition of positions (`add_pos`), per spec section 3 position arithmetic. -/
def Pos.add_pos (a b : Pos) : Pos := ⟨a.x + b.x, a.y + b.y⟩

/-- Modelled from the spec: `utils.rs` is absent from the sources.  `next_pos`
steps `pos` one cell in the direction of `delta_pos` (the signum of each
component), the "adjacent next position" used when checking for a stab target
directly in the movement path. -/
def next_pos (pos delta_pos : Pos) : Pos :=
  Pos.add_pos pos ⟨delta_pos.x.sign, delta_pos.y.sign⟩

/-- Modelled from the spec: `utils.rs` is absent from the sources.  The spec
(section 3) defines `distance` as the Euclidean distance between positions.
All uses in the embedded code compare distances, and comparisons of Euclidean
distances over integer points coincide with comparisons of their squares, so
distances are represented by their integer squares. -/
def dist_sq (a b : Pos) : Int :=
  (a.x - b.x) * (a.x - b.x) + (a.y - b.y) * (a.y - b.y)

/-- Modelled from the spec: `utils.rs` is absent from the sources.  `clamp`
bounds a value to the interval `[lo, hi]` (spec section 3: momentum bounded to
`[-max, max]` on each axis). -/
def clamp (v lo hi : Int) : Int :=
  if v < lo then lo else if v > hi then hi else v

/-- Chebyshev distance between two positions, the number of rasterization
steps a line between them takes. -/
def chebyshev (a b : Pos) : Nat :=
  max (a.x - b.x).natAbs (a.y - b.y).natAbs

/-- One rasterization step of `lineWalk`: move one cell toward `target`,
stepping each axis by the signum of the remaining difference. -/
def lineStep (cur target : Pos) : Pos :=
  ⟨cur.x + (target.x - cur.x).sign, cur.y + (target.y - cur.y).sign⟩

/-- Walk of at most `fuel` rasterization steps from `cur` toward `target`,
emitting each visited cell (the starting cell is not emitted). -/
def lineWalk : Nat → Pos → Pos → List Pos
  | 0, _, _ => []
  | fuel + 1, cur, target =>
    if cur = target then []
    else
      let nxt := lineStep cur target
      nxt :: lineWalk fuel nxt target

/-- Modelled from the spec: `utils.rs` (the line rasterization helper) is
absent from the sources.  Per spec section 4.2 the line from `start` to
`target` is rasterized by a deterministic integer algorithm; a zero-length
line is empty.  The starting point is excluded and the end point included,
as forced by the `offsets` unit tests in `movement.rs` (the origin never
appears among the offsets of a reach).  On the axis-aligned and diagonal lines
exercised by every verified code path this walk coincides with any
Bresenham-style rasterization. -/
def line_inclusive (start target : Pos) : List Pos :=
  lineWalk (chebyshev start target) start target

/-- Modelled from the spec: `utils.rs` is absent from the sources.
`move_next_to` yields the cell just before `target` on the rasterized line
from `pos` (spec section 4.3: an attack moves the attacker to the position
just before the entity); `pos` itself when `target` is adjacent or equal. -/
def move_next_to (pos target : Pos) : Pos :=
  ((line_inclusive pos target).dropLast).getLastD pos

/-- `MoveMode` (movement.rs): how fast the entity is moving. -/
inductive MoveMode where
  | Sneak
  | Walk
  | Run
deriving DecidableEq

/-- `Attack` (movement.rs): attack carried by a movement. -/
inductive Attack where
  | Attack (target_id : EntityId)
  | Push (target_id : EntityId) (delta_pos : Pos)
  | Stab (target_id : EntityId)
deriving DecidableEq

/-- `MoveType` (movement.rs). -/
inductive MoveType where
  | Move
  | Pass
  | JumpWall
  | WallKick (dx dy : Int)
  | Collide
deriving DecidableEq

/-- `Movement` (movement.rs): a resolved move with destination, kind and
optional attack. -/
structure Movement where
  pos : Pos
  typ : MoveType
  attack : Option Attack
deriving DecidableEq

/-- `Movement::move_to`. -/
def Movement.move_to (pos : Pos) (typ : MoveType) : Movement :=
  ⟨pos, typ, none⟩

/-- `Movement::attack`. -/
def Movement.attack_ (pos : Pos) (typ : MoveType) (attack : Attack) : Movement :=
  ⟨pos, typ, some attack⟩

/-- `Behavior` (ai.rs): AI behavior state. -/
inductive Behavior where
  | Idle
  | Investigating (target_pos : Pos)
  | Attacking (target : EntityId)
deriving DecidableEq

/-- `Direction` (movement.rs): the eight movement directions. -/
inductive Direction where
  | Left
  | Right
  | Up
  | Down
  | DownLeft
  | DownRight
  | UpLeft
  | UpRight
deriving DecidableEq

/-- `Direction::move_actions` (movement.rs): the fixed enumeration order of
all eight directions. -/
def Direction.move_actions : List Direction :=
  [Direction.Left, Direction.Right, Direction.Up, Direction.Down,
   Direction.DownLeft, Direction.DownRight, Direction.UpLeft, Direction.UpRight]

/-- `Reach` (movement.rs): shape profile for moves and attacks. -/
inductive Reach where
  | Single (dist : Nat)
  | Diag (dist : Nat)
  | Horiz (dist : Nat)
deriving DecidableEq

/-- `Reach::single`. -/
def Reach.single (dist : Nat) : Reach := Reach.Single dist

/-- `Reach::diag` (movement.rs lines 301-303): note the body returns the
`Single` variant. -/
def Reach.diag (dist : Nat) : Reach := Reach.Single dist

/-- `Reach::horiz` (movement.rs lines 305-307): note the body returns the
`Single` variant. -/
def Reach.horiz (dist : Nat) : Reach := Reach.Single dist

/-- `Reach::dist`. -/
def Reach.dist : Reach → Nat
  | Reach.Single d => d
  | Reach.Diag d => d
  | Reach.Horiz d => d

/-- `Reach::move_with_reach` (movement.rs): the offset a direction request
yields under this reach, or `none` when the direction is not permitted. -/
def Reach.move_with_reach (reach : Reach) (move_action : Direction) : Option Pos :=
  match reach with
  | Reach.Single d =>
    let dist : Int := d
    let neg_dist : Int := dist * -1
    match move_action with
    | Direction.Left => some (Pos.new neg_dist 0)
    | Direction.Right => some (Pos.new dist 0)
    | Direction.Up => some (Pos.new 0 neg_dist)
    | Direction.Down => some (Pos.new 0 dist)
    | Direction.DownLeft => some (Pos.new neg_dist dist)
    | Direction.DownRight => some (Pos.new dist dist)
    | Direction.UpLeft => some (Pos.new neg_dist neg_dist)
    | Direction.UpRight => some (Pos.new dist neg_dist)
  | Reach.Diag d =>
    let dist : Int := d
    let neg_dist : Int := dist * -1
    match move_action with
    | Direction.Left => none
    | Direction.Right => none
    | Direction.Up => none
    | Direction.Down => none
    | Direction.DownLeft => some (Pos.new neg_dist dist)
    | Direction.DownRight => some (Pos.new dist dist)
    | Direction.UpLeft => some (Pos.new neg_dist neg_dist)
    | Direction.UpRight => some (Pos.new dist neg_dist)
  | Reach.Horiz d =>
    let dist : Int := d
    let neg_dist : Int := dist * -1
    match move_action with
    | Direction.Left => some (Pos.new neg_dist 0)
    | Direction.Right => some (Pos.new dist 0)
    | Direction.Up => some (Pos.new 0 neg_dist)
    | Direction.Down => some (Pos.new 0 dist)
    | Direction.DownLeft => none
    | Direction.DownRight => none
    | Direction.UpLeft => none
    | Direction.UpRight => none

/-- The eight end points enumerated by `Reach::offsets` for `Single(dist)`
(movement.rs lines 414-417), in source order. -/
def single_end_points (dist : Int) : List Pos :=
  [⟨0, dist⟩, ⟨-dist, dist⟩, ⟨-dist, 0⟩,
   ⟨-dist, -dist⟩, ⟨0, -dist⟩, ⟨dist, -dist⟩,
   ⟨dist, 0⟩, ⟨dist, dist⟩]

/-- The end points enumerated by `Reach::offsets` for `Horiz(dist)`
(movement.rs lines 421-429), in source push order. -/
def horiz_end_points (dist : Int) : List Pos :=
  (List.range dist.toNat).flatMap fun k =>
    let d : Int := k + 1
    [⟨d, 0⟩, ⟨0, d⟩, ⟨-1 * d, 0⟩, ⟨0, -1 * d⟩]

/-- The end points enumerated by `Reach::offsets` for `Diag(dist)`
(movement.rs lines 434-442), in source push order. -/
def diag_end_points (dist : Int) : List Pos :=
  (List.range dist.toNat).flatMap fun k =>
    let d : Int := k + 1
    [⟨d, d⟩, ⟨-1 * d, d⟩, ⟨d, -1 * d⟩, ⟨-1 * d, -1 * d⟩]

/-- `Reach::offsets` (movement.rs lines 408-455): enumerate the end
points, then collect every point of the rasterized line from the origin to
each end point. -/
def Reach.offsets (reach : Reach) : List Pos :=
  let end_points : List Pos :=
    match reach with
    | Reach.Single d => single_end_points d
    | Reach.Horiz d => horiz_end_points d
    | Reach.Diag d => diag_end_points d
  end_points.flatMap fun e => line_inclusive (Pos.new 0 0) e

/-- `Reach::reachables`. -/
def Reach.reachables (reach : Reach) (start : Pos) : List Pos :=
  reach.offsets.map fun off => Pos.add_pos start off

/-- Modelled from the spec: `constants.rs` is absent from the sources.  The
spec (section 6) treats the maximum momentum as one fixed global tunable; no
verified property depends on its precise value, only on it being a global
constant distinct from the per-instance `max` field. -/
def MAX_MOMENTUM : Int := 2

/-- `Momentum` (movement.rs): per-axis signed momentum with a per-instance
bound. -/
structure Momentum where
  mx : Int
  my : Int
  max : Int
deriving DecidableEq

/-- `Momentum::magnitude` (movement.rs lines 523-529). -/
def Momentum.magnitude (m : Momentum) : Int :=
  if m.mx.natAbs > m.my.natAbs then (m.mx.natAbs : Int) else (m.my.natAbs : Int)

/-- `Momentum::at_maximum` (movement.rs lines 519-521): note the comparison is
against the global `MAX_MOMENTUM`, not the `max` field of the instance. -/
def Momentum.at_maximum (m : Momentum) : Bool :=
  m.magnitude = MAX_MOMENTUM

/-- `Momentum::moved` (movement.rs lines 535-550), as a function from the old
state to the new one (the source mutates `self`). -/
def Momentum.moved (m : Momentum) (dx dy : Int) : Momentum :=
  let mx := if m.mx ≠ 0 ∧ dx.sign ≠ m.mx.sign then 0
            else clamp (m.mx + dx.sign) (-m.max) m.max
  let my := if m.my ≠ 0 ∧ dy.sign ≠ m.my.sign then 0
            else clamp (m.my + dy.sign) (-m.max) m.max
  ⟨mx, my, m.max⟩

/-- `n` repetitions of `moved(1, 0)` starting from `m`. -/
def movedN (m : Momentum) : Nat → Momentum
  | 0 => m
  | n + 1 => (movedN m n).moved 1 0

/-- `Wall` (map.rs, absent from the sources).  Modelled from the spec:
section 3 gives the wall-edge strengths, of which `movement.rs` matches the
`ShortWall` tag; the empty tag is named for the absence of a wall. -/
inductive Wall where
  | Empty
  | ShortWall
  | TallWall
deriving DecidableEq

/-- `Blocked` (map.rs, absent from the sources).  Modelled from the spec:
section 4.1 says `is_blocked_by_wall` "returns the last free position before
the wall and the type/strength of the blocking wall"; `movement.rs` reads the
fields `start_pos` (last free position), `end_pos` (first position past the
wall), `blocked_tile` (whether the obstruction is a blocking tile rather than
an edge wall) and `wall_type`. -/
structure Blocked where
  start_pos : Pos
  end_pos : Pos
  blocked_tile : Bool
  wall_type : Wall
deriving DecidableEq

/-- The tile-grid queries consumed by `movement.rs` (`data.map`), with the
geometry of the map left abstract: `map.rs` is absent from the sources, so
`is_blocked_by_wall` is carried as an abstract query function per spec
section 4.1. -/
structure GMap where
  is_blocked_by_wall : Pos → Int → Int → Option Blocked

/-- The per-entity stores read by `movement.rs` (`data.entities.pos`,
`.move_mode`, `.blocks`), as total maps over entity ids. -/
structure Entities where
  pos : EntityId → Pos
  move_mode : EntityId → MoveMode
  blocks : EntityId → Bool

/-- `GameData` as consumed by `movement.rs`: the map queries, the entity
stores, and the two world queries `has_blocking_entity` and `can_stab`
(both defined outside the sources; `can_stab` is the external capability
predicate of spec section 4.3). -/
structure GameData where
  map : GMap
  entities : Entities
  has_blocking_entity : Pos → Option EntityId
  can_stab : EntityId → EntityId → Bool

/-- `MoveResult` (movement.rs lines 568-573). -/
structure MoveResult where
  entity : Option EntityId
  blocked : Option Blocked
  move_pos : Pos
deriving DecidableEq

/-- `MoveResult::with_pos`. -/
def MoveResult.with_pos (pos : Pos) : MoveResult :=
  ⟨none, none, pos⟩

/-- `MoveResult::no_collision`. -/
def MoveResult.no_collision (r : MoveResult) : Bool :=
  r.blocked.isNone && r.entity.isNone

/-- The entity-collision loop of `check_collision` (movement.rs lines
612-630), walking the rasterized move line.  The state `last_pos` is
reassigned to the constant starting position `pos` at the end of every
iteration, exactly as in the source (`last_pos = pos;` on line 629). -/
def collision_walk (data : GameData) (pos : Pos) :
    List Pos → Pos → MoveResult → MoveResult
  | [], _, result => result
  | line_pos :: rest, last_pos, result =>
    match data.has_blocking_entity line_pos with
    | some key => { result with move_pos := last_pos, entity := some key }
    | none =>
      match result.blocked with
      | some blocked =>
        if line_pos = blocked.start_pos then result
        else collision_walk data pos rest pos result
      | none => collision_walk data pos rest pos result

/-- `check_collision` (movement.rs lines 594-634). -/
def check_collision (pos : Pos) (dx dy : Int) (data : GameData) : MoveResult :=
  let result := MoveResult.with_pos ⟨pos.x + dx, pos.y + dy⟩
  if dx = 0 ∧ dy = 0 then result
  else
    let result :=
      match data.map.is_blocked_by_wall pos dx dy with
      | some blocked => { result with blocked := some blocked, move_pos := blocked.start_pos }
      | none => result
    let move_line := line_inclusive pos (Pos.new (pos.x + dx) (pos.y + dy))
    collision_walk data pos move_line pos result

/-- `entity_move_not_blocked` (movement.rs lines 636-654). -/
def entity_move_not_blocked (entity_id : EntityId) (move_pos delta_pos : Pos)
    (data : GameData) : Option Movement :=
  let pos := data.entities.pos entity_id
  match data.has_blocking_entity (next_pos pos delta_pos) with
  | some other_id =>
    if data.can_stab entity_id other_id then
      some (Movement.attack_ move_pos MoveType.Move (Attack.Stab other_id))
    else
      some (Movement.move_to move_pos MoveType.Move)
  | none => some (Movement.move_to move_pos MoveType.Move)

/-- `entity_move_blocked_by_wall` (movement.rs lines 656-693). -/
def entity_move_blocked_by_wall (entity_id : EntityId) (delta_pos : Pos)
    (blocked : Blocked) (data : GameData) : Option Movement :=
  let pos := data.entities.pos entity_id
  let jumped_wall :=
    if data.entities.move_mode entity_id = MoveMode.Run then
      if blocked.blocked_tile = false ∧ blocked.wall_type = Wall.ShortWall then
        true
      else false
    else false
  if jumped_wall then
    let new_pos := blocked.end_pos
    let movement := some (Movement.move_to new_pos MoveType.JumpWall)
    match data.has_blocking_entity (next_pos pos delta_pos) with
    | some other_id =>
      if data.can_stab entity_id other_id then
        some (Movement.attack_ new_pos MoveType.JumpWall (Attack.Stab other_id))
      else movement
    | none => movement
  else
    some (Movement.move_to blocked.start_pos MoveType.Move)

/-- `entity_move_blocked_by_entity` (movement.rs lines 695-710). -/
def entity_move_blocked_by_entity (entity_id other_id : EntityId)
    (move_pos delta_pos : Pos) (data : GameData) : Option Movement :=
  let pos := data.entities.pos entity_id
  if data.can_stab entity_id other_id then
    some (Movement.attack_ move_pos MoveType.Move (Attack.Stab other_id))
  else if data.entities.blocks other_id then
    some (Movement.attack_ (Pos.add_pos pos delta_pos) MoveType.Move
      (Attack.Push other_id delta_pos))
  else
    some (Movement.move_to move_pos MoveType.Move)

/-- `entity_move_blocked_by_entity_and_wall` (movement.rs lines 712-759). -/
def entity_move_blocked_by_entity_and_wall (entity_id other_id : EntityId)
    (blocked : Blocked) (delta_pos : Pos) (data : GameData) : Option Movement :=
  let entity_pos := data.entities.pos other_id
  let pos := data.entities.pos entity_id
  let entity_dist := dist_sq pos entity_pos
  let wall_dist := dist_sq pos blocked.start_pos
  if entity_dist < wall_dist then
    let attack :=
      if data.can_stab entity_id other_id then Attack.Stab other_id
      else Attack.Push other_id delta_pos
    some (Movement.attack_ (move_next_to pos entity_pos) MoveType.Move attack)
  else if entity_dist > wall_dist then
    let jumped_wall :=
      if data.entities.move_mode entity_id = MoveMode.Run then
        if blocked.blocked_tile = false ∧ blocked.wall_type = Wall.ShortWall then
          true
        else false
      else false
    if jumped_wall then
      let attack :=
        if data.can_stab entity_id other_id then Attack.Stab other_id
        else Attack.Push other_id delta_pos
      some (Movement.attack_ (move_next_to pos entity_pos) MoveType.Move attack)
    else
      some (Movement.move_to blocked.start_pos MoveType.Move)
  else
    some (Movement.move_to blocked.start_pos MoveType.Move)

/-- `calculate_move` (movement.rs lines 761-809). -/
def calculate_move (action : Direction) (reach : Reach) (entity_id : EntityId)
    (data : GameData) : Option Movement :=
  let pos := data.entities.pos entity_id
  let movement :=
    match reach.move_with_reach action with
    | some delta_pos =>
      let dx := delta_pos.x
      let dy := delta_pos.y
      let move_result := check_collision pos dx dy data
      match move_result.blocked, move_result.entity with
      | some blocked, some other_id =>
        entity_move_blocked_by_entity_and_wall entity_id other_id blocked delta_pos data
      | none, some other_id =>
        entity_move_blocked_by_entity entity_id other_id move_result.move_pos delta_pos data
      | some blocked, none =>
        entity_move_blocked_by_wall entity_id delta_pos blocked data
      | none, none =>
        entity_move_not_blocked entity_id move_result.move_pos delta_pos data
    | none => none
  match movement with
  | some moved =>
    if moved.attack = none ∧ moved.pos = pos then none else movement
  | none => none

/-- The `Movement` sum consumed by `ai.rs` (`Movement::Move(pos_offset)` /
`Movement::Attack(pos, target)`): `ai.rs` is written against a revision of
the movement module in which `Movement` is a tagged union; its constructors
are taken from their uses in `ai_attack` and `ai_apply_actions`. -/
inductive AiMovement where
  | Move (pos_offset : Pos)
  | Attack (pos : Pos) (target : EntityId)
deriving DecidableEq

/-- The `Action` variants consumed by `ai.rs` (`Action::Move`,
`Action::StateChange`, `Action::none()`), over the `Movement` sum above. -/
inductive AiAction where
  | Move (movement : AiMovement)
  | StateChange (behavior : Behavior)
  | NoAction
deriving DecidableEq

/-- `Action::none()` as used by `ai.rs`. -/
def AiAction.none_ : AiAction := AiAction.NoAction

/-- The per-object record read by `ai.rs` (`data.objects[handle]`): position,
alive flag, optional attack reach, optional movement reach and behavior
state, per the `Object` type of the prototype front end (src/types.rs). -/
structure Object where
  pos : Pos
  alive : Bool
  attack : Option Reach
  movement : Option Reach
  behavior : Option Behavior

/-- The map queries consumed by `ai.rs`.  `map.rs` is absent from the
sources; per spec section 4.1 the grid owns `width`/`height`, the FOV query,
the wall query and the `astar` path function, all carried here as abstract
query functions over the abstract grid state. -/
structure AiMap where
  width : Int
  height : Int
  is_in_fov : Pos → Pos → Int → Bool
  is_blocked_by_wall : Pos → Int → Int → Option Blocked
  astar : Pos → Pos → List Pos

/-- Modelled from the spec: `map.rs` is absent from the sources.
`is_within_bounds` (spec section 4.1) over the width and height of the grid. -/
def AiMap.is_within_bounds (m : AiMap) (p : Pos) : Bool :=
  0 ≤ p.x ∧ p.x < m.width ∧ 0 ≤ p.y ∧ p.y < m.height

/-- `GameData` as consumed by `ai.rs`: the grid, the object table, and the
player/tile/sound queries.  `find_player` and `sound_within_earshot` are
defined outside the sources and carried as part of the world state. -/
structure AiGameData where
  map : AiMap
  objects : EntityId → Object
  find_player : Option EntityId
  is_blocked_tile : Pos → Bool
  sound_within_earshot : Pos → Option Pos

/-- Modelled from the spec: `constants.rs` is absent from the sources.  The
monster FOV radius; spec section 8 exercises it at radius 6. -/
def MONSTER_VIEW_DIST : Int := 6

/-- `step_towards` (ai.rs lines 30-39).  The source divides each delta
component by the Euclidean length in `f32` and rounds to the nearest whole
number; over integer inputs that rounds to the signum of the component exactly
when the square of the component is at least a quarter of the squared length
(the boundary case is irrational and never hit), modelled here by the exact
integer comparison. -/
def step_towards (start_pos target_pos : Pos) : Pos :=
  let dx := target_pos.x - start_pos.x
  let dy := target_pos.y - start_pos.y
  let sx := if ¬(dx = 0 ∧ dy = 0) ∧ dx * dx + dy * dy ≤ 4 * (dx * dx) then dx.sign else 0
  let sy := if ¬(dx = 0 ∧ dy = 0) ∧ dx * dx + dy * dy ≤ 4 * (dy * dy) then dy.sign else 0
  Pos.new sx sy

/-- `ai_can_hit_target` (ai.rs lines 139-168): when the target is within the
FOV of the monster, the first offset of `reach` that lands exactly on the target,
translated to the position of the monster.  The source threads the map mutably
only for the FOV cache, which the spec requires to be behaviorally inert, so
the query is modelled pure. -/
def ai_can_hit_target (map : AiMap) (monster_pos target_pos : Pos)
    (reach : Reach) : Option Pos :=
  if map.is_in_fov monster_pos target_pos MONSTER_VIEW_DIST then
    (reach.offsets.map fun p => Pos.new (p.x + monster_pos.x) (p.y + monster_pos.y)).find?
      fun pos => target_pos = pos
  else none

/-- `ai_take_astar_step` (ai.rs lines 170-180). -/
def ai_take_astar_step (monster_pos target_pos : Pos) (data : AiGameData) : Pos :=
  let astar_iter := data.map.astar monster_pos target_pos
  if 1 < astar_iter.length ∧ data.is_blocked_tile (astar_iter.getD 1 (Pos.new 0 0)) = false then
    step_towards monster_pos (astar_iter.getD 1 (Pos.new 0 0))
  else
    Pos.new 0 0

/-- The candidate-position enumeration of `ai_attack` (ai.rs lines 68-75):
all movement-reach destinations, translated to the position of the monster, kept
when within bounds, then kept when `is_blocked_tile` holds — exactly as in
the source, whose filter keeps the blocked tiles. -/
def ai_attack_move_positions (data : AiGameData) (monster_pos : Pos)
    (movement : Reach) : List Pos :=
  ((((Direction.move_actions.map fun move_action => movement.move_with_reach move_action).filterMap
      id).map fun p => Pos.add_pos p monster_pos).filter
      fun p => data.map.is_within_bounds p).filter
      fun p => data.is_blocked_tile p

/-- The candidate filter of `ai_attack` (ai.rs lines 77-83): candidates from
which the attack reach would hit the target. -/
def ai_attack_positions (data : AiGameData) (monster_pos target_pos : Pos)
    (movement atk : Reach) : List Pos :=
  (ai_attack_move_positions data monster_pos movement).filter
    fun new_pos => (ai_can_hit_target data.map new_pos target_pos atk).isSome

/-- `Iterator::min_by_key` over squared distance to `t`: the first element
attaining the minimum, or `none` on the empty list. -/
def min_by_dist (t : Pos) : List Pos → Option Pos
  | [] => none
  | p :: rest =>
    match min_by_dist t rest with
    | none => some p
    | some q => if dist_sq t p ≤ dist_sq t q then some p else some q

/-- `ai_attack` (ai.rs lines 41-101).  `none` models the source call
`attack.unwrap()` failing when the monster has no attack reach. -/
def ai_attack (monster_handle target_handle : EntityId) (data : AiGameData) :
    Option AiAction :=
  let target_pos := (data.objects target_handle).pos
  let monster_pos := (data.objects monster_handle).pos
  if (data.objects target_handle).alive = false then
    some (AiAction.StateChange (Behavior.Investigating target_pos))
  else
    match (data.objects monster_handle).attack with
    | none => none
    | some atk =>
      match ai_can_hit_target data.map monster_pos target_pos atk with
      | some hit_pos => some (AiAction.Move (AiMovement.Attack hit_pos target_handle))
      | none =>
        if (data.map.is_blocked_by_wall monster_pos (target_pos.x - monster_pos.x)
              (target_pos.y - monster_pos.y)).isSome then
          some (AiAction.StateChange (Behavior.Investigating target_pos))
        else
          let pos_offset :=
            match (data.objects monster_handle).movement with
            | some movement =>
              let positions := ai_attack_positions data monster_pos target_pos movement atk
              let new_target_pos :=
                if 0 < positions.length then
                  (min_by_dist target_pos positions).getD target_pos
                else target_pos
              ai_take_astar_step monster_pos new_target_pos data
            | none => Pos.new 0 0
          some (AiAction.Move (AiMovement.Move pos_offset))

/-- `ai_investigate` (ai.rs lines 103-137), as the returned decision.  (When
a sound is heard the source also stores the updated target into the
behavior of the monster; that write does not affect the returned action and
the claims here concern only the decision.)  `none` models the source call
`find_player().unwrap()` failing when no player exists. -/
def ai_investigate (target_pos_orig : Pos) (monster_handle : EntityId)
    (data : AiGameData) : Option AiAction :=
  match data.find_player with
  | none => none
  | some player_handle =>
    let player_pos := (data.objects player_handle).pos
    let monster_pos := (data.objects monster_handle).pos
    if data.map.is_in_fov monster_pos player_pos MONSTER_VIEW_DIST then
      some (AiAction.StateChange (Behavior.Attacking player_handle))
    else
      let target_pos :=
        match data.sound_within_earshot monster_pos with
        | some sound_pos => Pos.new sound_pos.x sound_pos.y
        | none => target_pos_orig
      if target_pos = monster_pos then
        some (AiAction.StateChange Behavior.Idle)
      else
        some (AiAction.Move (AiMovement.Move
          (ai_take_astar_step monster_pos target_pos data)))

/-- `basic_ai_take_turn` (ai.rs lines 184-222).  `none` models the two
fatal paths of the source: `find_player().unwrap()` with no player, and the fatal
branch for an unhandled behavior value (here: a monster with no behavior). -/
def basic_ai_take_turn (monster_handle : EntityId) (data : AiGameData) :
    Option AiAction :=
  match data.find_player with
  | none => none
  | some player_handle =>
    let monster_pos := (data.objects monster_handle).pos
    let player_pos := (data.objects player_handle).pos
    if data.map.is_within_bounds monster_pos then
      match (data.objects monster_handle).behavior with
      | some Behavior.Idle =>
        if data.map.is_in_fov monster_pos player_pos MONSTER_VIEW_DIST then
          some (AiAction.StateChange (Behavior.Attacking player_handle))
        else
          match data.sound_within_earshot monster_pos with
          | some sound_pos =>
            some (AiAction.StateChange
              (Behavior.Investigating (Pos.new sound_pos.x sound_pos.y)))
          | none => some AiAction.none_
      | some (Behavior.Investigating target_pos) =>
        ai_investigate target_pos monster_handle data
      | some (Behavior.Attacking object_handle) =>
        ai_attack monster_handle object_handle data
      | none => none
    else
      some AiAction.none_

/-- Concrete world for the `ai_attack` candidate-search evaluation: a 10 by 10
grid with full mutual visibility and no walls, a monster (id 0) at (3,2) with
movement and attack reach `Single 1` attacking the player (id 1) at (5,2),
one blocked tile at (4,2). -/
def dataC1 : AiGameData where
  map :=
    { width := 10
      height := 10
      is_in_fov := fun _ _ _ => true
      is_blocked_by_wall := fun _ _ _ => none
      astar := fun a b => [a, b] }
  objects := fun h =>
    if h = 0 then
      { pos := ⟨3, 2⟩, alive := true, attack := some (Reach.Single 1),
        movement := some (Reach.Single 1), behavior := some (Behavior.Attacking 1) }
    else
      { pos := ⟨5, 2⟩, alive := true, attack := none,
        movement := none, behavior := none }
  find_player := some 1
  is_blocked_tile := fun p => if p = Pos.mk 4 2 then true else false
  sound_within_earshot := fun _ => none

/-- Concrete world for the `check_collision` evaluation: no walls, a blocking
entity (id 5) at (2,0), the mover at (0,0). -/
def dataC2 : GameData where
  map := { is_blocked_by_wall := fun _ _ _ => none }
  entities :=
    { pos := fun _ => ⟨0, 0⟩
      move_mode := fun _ => MoveMode.Walk
      blocks := fun _ => true }
  has_blocking_entity := fun p => if p = Pos.mk 2 0 then some 5 else none
  can_stab := fun _ _ => false

/-- Concrete world for the `calculate_move` witness: an empty grid with the
mover (id 0) at the origin and nothing blocking. -/
def dataC3 : GameData where
  map := { is_blocked_by_wall := fun _ _ _ => none }
  entities :=
    { pos := fun _ => ⟨0, 0⟩
      move_mode := fun _ => MoveMode.Walk
      blocks := fun _ => false }
  has_blocking_entity := fun _ => none
  can_stab := fun _ _ => false

/-- Concrete world for the wall-jump witness: a running mover (id 0) at
(5,5) and no blocking entities (the spec section 8 short-wall scenario). -/
def dataC4 : GameData where
  map := { is_blocked_by_wall := fun _ _ _ => none }
  entities :=
    { pos := fun _ => ⟨5, 5⟩
      move_mode := fun _ => MoveMode.Run
      blocks := fun _ => false }
  has_blocking_entity := fun _ => none
  can_stab := fun _ _ => false

/-- The short-wall obstruction of the spec section 8 scenario: last free
position (5,5), far side (6,5), a jumpable `ShortWall` edge. -/
def blockedC4 : Blocked := ⟨⟨5, 5⟩, ⟨6, 5⟩, false, Wall.ShortWall⟩

/-- Concrete world for the combined wall-and-entity obstruction: a running
mover (id 0) at (0,0), a blocking entity (id 1) at (3,0), no stab
capability. -/
def dataC5 : GameData where
  map := { is_blocked_by_wall := fun _ _ _ => none }
  entities :=
    { pos := fun h => if h = 0 then ⟨0, 0⟩ else ⟨3, 0⟩
      move_mode := fun _ => MoveMode.Run
      blocks := fun _ => true }
  has_blocking_entity := fun p => if p = Pos.mk 3 0 then some 1 else none
  can_stab := fun _ _ => false

/-- A jumpable short wall whose last free position (1,0) is closer to the
mover of `dataC5` than the blocking entity at (3,0). -/
def blockedC5 : Blocked := ⟨⟨1, 0⟩, ⟨2, 0⟩, false, Wall.ShortWall⟩

/-- A jumpable short wall whose last free position (3,0) is exactly as far
from the mover of `dataC5` as the blocking entity at (3,0). -/
def blockedC5tie : Blocked := ⟨⟨3, 0⟩, ⟨4, 0⟩, false, Wall.ShortWall⟩

/-- Concrete world for the out-of-bounds AI turn: a 10 by 10 grid, the
monster (id 0) stranded at (-1,0) in the `Idle` state, the player (id 1) at
(0,0). -/
def dataC9 : AiGameData where
  map :=
    { width := 10
      height := 10
      is_in_fov := fun _ _ _ => true
      is_blocked_by_wall := fun _ _ _ => none
      astar := fun a b => [a, b] }
  objects := fun h =>
    if h = 0 then
      { pos := ⟨-1, 0⟩, alive := true, attack := some (Reach.Single 1),
        movement := some (Reach.Single 1), behavior := some Behavior.Idle }
    else
      { pos := ⟨0, 0⟩, alive := true, attack := none,
        movement := none, behavior := none }
  find_player := some 1
  is_blocked_tile := fun _ => false
  sound_within_earshot := fun _ => none

/-- The sign of a product of a unit (-1, 0 or 1) with a positive integer is
that unit. -/
theorem sign_unit_mul (s : Int) (hs : s = -1 ∨ s = 0 ∨ s = 1) (m : Int)
    (hm : 0 < m) : (s * m).sign = s := by
  rcases hs with h | h | h <;> subst h
  · simpa [Int.sign_neg] using (Int.sign_eq_one_iff_pos.mpr hm)
  · simp
  · simpa using (Int.sign_eq_one_iff_pos.mpr hm)

/-- On an axis-aligned or diagonal ray from the origin the rasterization walk
visits exactly the successive multiples of the unit step. -/
theorem lineWalk_ray (s t : Int) (hs : s = -1 ∨ s = 0 ∨ s = 1)
    (ht : t = -1 ∨ t = 0 ∨ t = 1) (hst : ¬(s = 0 ∧ t = 0)) :
    ∀ (n : Nat) (c : Int),
      lineWalk n ⟨s * c, t * c⟩ ⟨s * (c + n), t * (c + n)⟩ =
        (List.range n).map
          (fun k : Nat => (⟨s * (c + (k : Int) + 1), t * (c + (k : Int) + 1)⟩ : Pos)) := by
  intro n
  induction n with
  | zero => intro c; rfl
  | succ n ih =>
    intro c
    have hne : (⟨s * c, t * c⟩ : Pos) ≠ ⟨s * (c + (n + 1 : Nat)), t * (c + (n + 1 : Nat))⟩ := by
      intro h
      have hx : s * c = s * (c + (n + 1 : Nat)) := congrArg Pos.x h
      have hy : t * c = t * (c + (n + 1 : Nat)) := congrArg Pos.y h
      have hsx : s = 0 := by
        rcases hs with h1 | h1 | h1 <;> subst h1 <;> push_cast at hx <;> omega
      have hty : t = 0 := by
        rcases ht with h1 | h1 | h1 <;> subst h1 <;> push_cast at hy <;> omega
      exact hst ⟨hsx, hty⟩
    have hstep : lineStep ⟨s * c, t * c⟩ ⟨s * (c + (n + 1 : Nat)), t * (c + (n + 1 : Nat))⟩ =
        ⟨s * (c + 1), t * (c + 1)⟩ := by
      unfold lineStep
      have hx : s * (c + (n + 1 : Nat)) - s * c = s * ((n : Int) + 1) := by push_cast; ring
      have hy : t * (c + (n + 1 : Nat)) - t * c = t * ((n : Int) + 1) := by push_cast; ring
      rw [hx, hy, sign_unit_mul s hs _ (by omega), sign_unit_mul t ht _ (by omega)]
      congr 1 <;> ring
    rw [lineWalk, if_neg hne]
    simp only [hstep]
    have ihc := ih (c + 1)
    have harg : (⟨s * ((c + 1) + (n : Int)), t * ((c + 1) + (n : Int))⟩ : Pos) =
        ⟨s * (c + (n + 1 : Nat)), t * (c + (n + 1 : Nat))⟩ := by
      congr 1 <;> push_cast <;> ring
    rw [harg] at ihc
    rw [ihc, List.range_succ_eq_map, List.map_cons, List.map_map]
    congr 1
    · congr 1 <;> push_cast <;> ring
    · apply List.map_congr_left
      intro k _
      simp only [Function.comp]
      congr 1 <;> push_cast <;> ring

/-- The rasterized line from the origin to a point at Chebyshev distance `d`
on an axis or diagonal consists of the `d` successive unit multiples. -/
theorem line_inclusive_ray (s t : Int) (hs : s = -1 ∨ s = 0 ∨ s = 1)
    (ht : t = -1 ∨ t = 0 ∨ t = 1) (hst : ¬(s = 0 ∧ t = 0)) (d : Nat) :
    line_inclusive ⟨0, 0⟩ ⟨s * d, t * d⟩ =
      (List.range d).map
        (fun k : Nat => (⟨s * ((k : Int) + 1), t * ((k : Int) + 1)⟩ : Pos)) := by
  unfold line_inclusive
  have hcheb : chebyshev ⟨0, 0⟩ ⟨s * d, t * d⟩ = d := by
    unfold chebyshev
    rcases hs with h1 | h1 | h1 <;> rcases ht with h2 | h2 | h2 <;>
      subst h1 <;> subst h2 <;> simp <;> omega
  rw [hcheb]
  have h := lineWalk_ray s t hs ht hst d 0
  simpa using h

/-- Closed form of `Reach::offsets` for the `Single` shape: the concatenation
of the eight rasterized rays, in source enumeration order. -/
theorem offsets_single_eq (d : Nat) :
    (Reach.Single d).offsets =
      ((List.range d).map fun k : Nat => (⟨0, (k : Int) + 1⟩ : Pos)) ++
      (((List.range d).map fun k : Nat => (⟨-((k : Int) + 1), (k : Int) + 1⟩ : Pos)) ++
      (((List.range d).map fun k : Nat => (⟨-((k : Int) + 1), 0⟩ : Pos)) ++
      (((List.range d).map fun k : Nat => (⟨-((k : Int) + 1), -((k : Int) + 1)⟩ : Pos)) ++
      (((List.range d).map fun k : Nat => (⟨0, -((k : Int) + 1)⟩ : Pos)) ++
      (((List.range d).map fun k : Nat => (⟨(k : Int) + 1, -((k : Int) + 1)⟩ : Pos)) ++
      (((List.range d).map fun k : Nat => (⟨(k : Int) + 1, 0⟩ : Pos)) ++
      ((List.range d).map fun k : Nat => (⟨(k : Int) + 1, (k : Int) + 1⟩ : Pos)))))))) := by
  have l1 := line_inclusive_ray 0 1 (by tauto) (by tauto) (by simp) d
  have l2 := line_inclusive_ray (-1) 1 (by tauto) (by tauto) (by simp) d
  have l3 := line_inclusive_ray (-1) 0 (by tauto) (by tauto) (by simp) d
  have l4 := line_inclusive_ray (-1) (-1) (by tauto) (by tauto) (by simp) d
  have l5 := line_inclusive_ray 0 (-1) (by tauto) (by tauto) (by simp) d
  have l6 := line_inclusive_ray 1 (-1) (by tauto) (by tauto) (by simp) d
  have l7 := line_inclusive_ray 1 0 (by tauto) (by tauto) (by simp) d
  have l8 := line_inclusive_ray 1 1 (by tauto) (by tauto) (by simp) d
  simp only [neg_mul, one_mul, zero_mul, neg_neg] at l1 l2 l3 l4 l5 l6 l7 l8
  show (single_end_points d).flatMap (fun e => line_inclusive (Pos.new 0 0) e) = _
  simp only [single_end_points, List.flatMap_cons, List.flatMap_nil, List.append_nil, Pos.new]
  rw [l1, l2, l3, l4, l5, l6, l7, l8]

/-- The image of the last index of `List.range d` is a member of the mapped
range. -/
theorem ray_last_mem (f : Nat → Pos) (d : Nat) (hd : 1 ≤ d) :
    f (d - 1) ∈ (List.range d).map f :=
  List.mem_map_of_mem f (List.mem_range.mpr (by omega))

/-- C6 (corrected).  For `d = 2` the claim "Reach::Single(d).offsets()
returns exactly 8 points, each at Chebyshev distance d" fails on the code:
the offsets list has 16 entries and contains the point (0,1), whose Chebyshev
distance from the origin is 1, not 2. -/
theorem c6_counterexample :
    ((Reach.Single 2).offsets).length ≠ 8
    ∧ Pos.mk 0 1 ∈ (Reach.Single 2).offsets
    ∧ max (Pos.mk 0 1).x.natAbs (Pos.mk 0 1).y.natAbs ≠ 2 := by
  decide

/-- C6 (amended).  For every `d` with `1 ≤ d`, `Reach::Single(d).offsets()`
returns `8 * d` points: for each of the eight directions, every point of the
rasterized ray from the origin out to Chebyshev distance `d`.  All eight
extreme points at Chebyshev distance exactly `d` are present, every returned
point has Chebyshev distance between 1 and `d`, and for `d = 1` the list is
exactly the eight neighbours, one per direction, with no duplicates. -/
theorem c6_amended (d : Nat) (hd : 1 ≤ d) :
    ((Reach.Single d).offsets).length = 8 * d
    ∧ (∀ p ∈ single_end_points d, p ∈ (Reach.Single d).offsets
         ∧ max p.x.natAbs p.y.natAbs = d)
    ∧ (∀ p ∈ (Reach.Single d).offsets,
         1 ≤ max p.x.natAbs p.y.natAbs ∧ max p.x.natAbs p.y.natAbs ≤ d)
    ∧ (d = 1 → (Reach.Single d).offsets = single_end_points 1) := by
  have hcast : ((d - 1 : Nat) : Int) + 1 = (d : Int) := by omega
  refine ⟨?_, ?_, ?_, ?_⟩
  · rw [offsets_single_eq]
    simp [List.length_append, List.length_map, List.length_range]
    ring
  · have m1 : (⟨0, (d : Int)⟩ : Pos) ∈
        (List.range d).map (fun k : Nat => (⟨0, (k : Int) + 1⟩ : Pos)) := by
      simpa [hcast] using ray_last_mem (fun k : Nat => (⟨0, (k : Int) + 1⟩ : Pos)) d hd
    have m2 : (⟨-(d : Int), (d : Int)⟩ : Pos) ∈
        (List.range d).map (fun k : Nat => (⟨-((k : Int) + 1), (k : Int) + 1⟩ : Pos)) := by
      simpa [hcast] using
        ray_last_mem (fun k : Nat => (⟨-((k : Int) + 1), (k : Int) + 1⟩ : Pos)) d hd
    have m3 : (⟨-(d : Int), 0⟩ : Pos) ∈
        (List.range d).map (fun k : Nat => (⟨-((k : Int) + 1), 0⟩ : Pos)) := by
      simpa [hcast] using
        ray_last_mem (fun k : Nat => (⟨-((k : Int) + 1), 0⟩ : Pos)) d hd
    have m4 : (⟨-(d : Int), -(d : Int)⟩ : Pos) ∈
        (List.range d).map (fun k : Nat => (⟨-((k : Int) + 1), -((k : Int) + 1)⟩ : Pos)) := by
      simpa [hcast] using
        ray_last_mem (fun k : Nat => (⟨-((k : Int) + 1), -((k : Int) + 1)⟩ : Pos)) d hd
    have m5 : (⟨0, -(d : Int)⟩ : Pos) ∈
        (List.range d).map (fun k : Nat => (⟨0, -((k : Int) + 1)⟩ : Pos)) := by
      simpa [hcast] using
        ray_last_mem (fun k : Nat => (⟨0, -((k : Int) + 1)⟩ : Pos)) d hd
    have m6 : (⟨(d : Int), -(d : Int)⟩ : Pos) ∈
        (List.range d).map (fun k : Nat => (⟨(k : Int) + 1, -((k : Int) + 1)⟩ : Pos)) := by
      simpa [hcast] using
        ray_last_mem (fun k : Nat => (⟨(k : Int) + 1, -((k : Int) + 1)⟩ : Pos)) d hd
    have m7 : (⟨(d : Int), 0⟩ : Pos) ∈
        (List.range d).map (fun k : Nat => (⟨(k : Int) + 1, 0⟩ : Pos)) := by
      simpa [hcast] using
        ray_last_mem (fun k : Nat => (⟨(k : Int) + 1, 0⟩ : Pos)) d hd
    have m8 : (⟨(d : Int), (d : Int)⟩ : Pos) ∈
        (List.range d).map (fun k : Nat => (⟨(k : Int) + 1, (k : Int) + 1⟩ : Pos)) := by
      simpa [hcast] using
        ray_last_mem (fun k : Nat => (⟨(k : Int) + 1, (k : Int) + 1⟩ : Pos)) d hd
    intro p hp
    simp only [single_end_points, List.mem_cons, List.not_mem_nil, or_false] at hp
    rw [offsets_single_eq]
    simp only [List.mem_append]
    rcases hp with h | h | h | h | h | h | h | h <;> subst h <;> refine ⟨?_, ?_⟩
    · exact Or.inl m1
    · simp [Int.natAbs_neg]
    · exact Or.inr (Or.inl m2)
    · simp [Int.natAbs_neg]
    · exact Or.inr (Or.inr (Or.inl m3))
    · simp [Int.natAbs_neg]
    · exact Or.inr (Or.inr (Or.inr (Or.inl m4)))
    · simp [Int.natAbs_neg]
    · exact Or.inr (Or.inr (Or.inr (Or.inr (Or.inl m5))))
    · simp [Int.natAbs_neg]
    · exact Or.inr (Or.inr (Or.inr (Or.inr (Or.inr (Or.inl m6)))))
    · simp [Int.natAbs_neg]
    · exact Or.inr (Or.inr (Or.inr (Or.inr (Or.inr (Or.inr (Or.inl m7))))))
    · simp [Int.natAbs_neg]
    · exact Or.inr (Or.inr (Or.inr (Or.inr (Or.inr (Or.inr (Or.inr m8))))))
    · simp [Int.natAbs_neg]
  · intro p hp
    rw [offsets_single_eq] at hp
    simp only [List.mem_append, List.mem_map, List.mem_range] at hp
    rcases hp with ⟨k, hk, rfl⟩ | ⟨k, hk, rfl⟩ | ⟨k, hk, rfl⟩ | ⟨k, hk, rfl⟩ |
      ⟨k, hk, rfl⟩ | ⟨k, hk, rfl⟩ | ⟨k, hk, rfl⟩ | ⟨k, hk, rfl⟩ <;>
      constructor <;> simp <;> omega
  · intro h
    subst h
    decide

/-- C6 (witness for the amended theorem, at `d = 2`). -/
theorem c6_amended_witness :
    ((Reach.Single 2).offsets).length = 8 * 2
    ∧ (∀ p ∈ single_end_points ((2 : Nat) : Int), p ∈ (Reach.Single 2).offsets
         ∧ max p.x.natAbs p.y.natAbs = 2)
    ∧ (∀ p ∈ (Reach.Single 2).offsets,
         1 ≤ max p.x.natAbs p.y.natAbs ∧ max p.x.natAbs p.y.natAbs ≤ 2)
    ∧ ((2 : Nat) = 1 → (Reach.Single 2).offsets = single_end_points 1) :=
  c6_amended 2 (by decide)

/-- The x component of `Momentum::moved`, read off the source branch
structure. -/
theorem moved_mx (m : Momentum) (dx dy : Int) :
    (m.moved dx dy).mx =
      if m.mx ≠ 0 ∧ dx.sign ≠ m.mx.sign then 0
      else clamp (m.mx + dx.sign) (-m.max) m.max := rfl

/-- The y component of `Momentum::moved`, read off the source branch
structure. -/
theorem moved_my (m : Momentum) (dx dy : Int) :
    (m.moved dx dy).my =
      if m.my ≠ 0 ∧ dy.sign ≠ m.my.sign then 0
      else clamp (m.my + dy.sign) (-m.max) m.max := rfl

/-- `Momentum::moved` leaves the bound unchanged. -/
theorem moved_max (m : Momentum) (dx dy : Int) : (m.moved dx dy).max = m.max := rfl

/-- After `n` repetitions of `moved(1, 0)` from rest, the x momentum is
`min n max`, the y momentum stays zero and the bound is unchanged. -/
theorem movedN_spec (mmax : Int) (hmax : 0 ≤ mmax) (n : Nat) :
    (movedN ⟨0, 0, mmax⟩ n).mx = min (n : Int) mmax
    ∧ (movedN ⟨0, 0, mmax⟩ n).my = 0
    ∧ (movedN ⟨0, 0, mmax⟩ n).max = mmax := by
  induction n with
  | zero => simp [movedN]; omega
  | succ n ih =>
    obtain ⟨hx, hy, hm⟩ := ih
    have hone : (1 : Int).sign = 1 := rfl
    have hzero : (0 : Int).sign = 0 := rfl
    have e : movedN ⟨0, 0, mmax⟩ (n + 1) = (movedN ⟨0, 0, mmax⟩ n).moved 1 0 := rfl
    rw [e, moved_mx, moved_my, moved_max, hx, hy, hm, hone, hzero]
    refine ⟨?_, ?_, rfl⟩
    · by_cases h0 : min (n : Int) mmax = 0
      · rw [h0]
        simp only [ne_eq, not_true_eq_false, false_and, if_false]
        unfold clamp
        push_cast
        omega
      · have hpos : 0 < min (n : Int) mmax := by omega
        have hsgn : (min (n : Int) mmax).sign = 1 := Int.sign_eq_one_iff_pos.mpr hpos
        rw [hsgn]
        simp only [ne_eq, h0, not_false_eq_true, true_and, not_true_eq_false, if_false]
        unfold clamp
        push_cast
        omega
    · simp only [ne_eq, not_true_eq_false, false_and, if_false]
      unfold clamp
      omega

/-- `Momentum::magnitude` of a state with nonnegative x momentum and zero y
momentum is the x momentum itself. -/
theorem magnitude_nonneg_form (m : Momentum) (h : 0 ≤ m.mx) (h2 : m.my = 0) :
    m.magnitude = m.mx := by
  unfold Momentum.magnitude
  rw [h2]
  split <;> omega

/-- C7 (counterexample).  The claim says an axis is zeroed exactly when the
delta on that axis opposes the stored sign, and is otherwise incremented by
the clamped signum.  At momentum (mx 1, my 0, max 2) and delta (0, 1), the
x delta is zero, so it does not oppose the stored positive sign, and the
claimed otherwise-rule dictates mx stays clamp(1 + 0) = 1; the code instead
zeroes mx (it zeroes on any signum mismatch, a zero delta included). -/
theorem c7_counterexample :
    (Momentum.moved ⟨1, 0, 2⟩ 0 1).mx = 0
    ∧ ¬((0 : Int).sign = -(1 : Int).sign)
    ∧ clamp ((1 : Int) + (0 : Int).sign) (-2) 2 = 1 := by
  decide

/-- C7 (amended).  `moved(dx, dy)` zeroes an axis exactly when the stored
value is nonzero and the signum of that axis delta differs from the stored
sign (a zero delta on a moving axis included); otherwise it increments the
axis by the signum of the delta, clamped to [-max, max].  Consequently,
starting from rest, `n` repetitions of `moved(1, 0)` give magnitude
`min n max`, and a `moved(-1, 0)` after a positive mx resets mx to 0. -/
theorem c7_amended (m : Momentum) (dx dy : Int) (n : Nat) (hmax : 0 ≤ m.max) :
    (m.mx ≠ 0 → dx.sign ≠ m.mx.sign → (m.moved dx dy).mx = 0)
    ∧ (m.mx = 0 ∨ dx.sign = m.mx.sign →
        (m.moved dx dy).mx = clamp (m.mx + dx.sign) (-m.max) m.max)
    ∧ (m.my ≠ 0 → dy.sign ≠ m.my.sign → (m.moved dx dy).my = 0)
    ∧ (m.my = 0 ∨ dy.sign = m.my.sign →
        (m.moved dx dy).my = clamp (m.my + dy.sign) (-m.max) m.max)
    ∧ (0 < m.mx → (m.moved (-1) 0).mx = 0)
    ∧ (movedN ⟨0, 0, m.max⟩ n).magnitude = min (n : Int) m.max := by
  refine ⟨?_, ?_, ?_, ?_, ?_, ?_⟩
  · intro h1 h2
    rw [moved_mx, if_pos (And.intro h1 h2)]
  · intro h
    rw [moved_mx, if_neg]
    rcases h with h | h
    · exact fun hc => hc.1 h
    · exact fun hc => hc.2 h
  · intro h1 h2
    rw [moved_my, if_pos (And.intro h1 h2)]
  · intro h
    rw [moved_my, if_neg]
    rcases h with h | h
    · exact fun hc => hc.1 h
    · exact fun hc => hc.2 h
  · intro hpos
    rw [moved_mx, if_pos]
    refine ⟨by omega, ?_⟩
    rw [Int.sign_eq_one_iff_pos.mpr hpos]
    decide
  · obtain ⟨hx, hy, _⟩ := movedN_spec m.max hmax n
    have hnn : 0 ≤ min (n : Int) m.max := by omega
    rw [magnitude_nonneg_form _ (by omega) hy, hx]

/-- C7 (witness for the amended theorem, at momentum bound 2 and three
forward moves). -/
theorem c7_amended_witness :
    (movedN ⟨0, 0, 2⟩ 3).magnitude = min ((3 : Nat) : Int) 2 :=
  (c7_amended ⟨0, 0, 2⟩ 1 0 3 (by decide)).2.2.2.2.2

/-- C8 (counterexample).  At the state (mx 3, my 0, max 3) the magnitude
equals the instance max field (both 3), yet `at_maximum` is false: the code
compares the magnitude against the global `MAX_MOMENTUM` constant, not the
instance field. -/
theorem c8_counterexample :
    Momentum.at_maximum ⟨3, 0, 3⟩ = false
    ∧ (Momentum.mk 3 0 3).magnitude = (Momentum.mk 3 0 3).max := by
  decide

/-- C8 (amended).  For every momentum state, `magnitude()` equals
max(|mx|, |my|), and `at_maximum()` is true exactly when the magnitude
equals the global `MAX_MOMENTUM` constant (not the instance max field). -/
theorem c8_amended (m : Momentum) :
    m.magnitude = ((max m.mx.natAbs m.my.natAbs : Nat) : Int)
    ∧ (m.at_maximum = true ↔ m.magnitude = MAX_MOMENTUM) := by
  constructor
  · unfold Momentum.magnitude
    split
    · norm_cast
      omega
    · norm_cast
      omega
  · unfold Momentum.at_maximum
    simp

/-- C8 (witness for the amended theorem, at the state (mx 2, my 0, max 2)). -/
theorem c8_amended_witness :
    (Momentum.mk 2 0 2).magnitude =
      ((max (Int.natAbs 2) (Int.natAbs 0) : Nat) : Int)
    ∧ ((Momentum.mk 2 0 2).at_maximum = true ↔
        (Momentum.mk 2 0 2).magnitude = MAX_MOMENTUM) :=
  c8_amended ⟨2, 0, 2⟩

/-- C2 (code evaluation at the failing input).  With the mover at (0,0), a
delta of (2,0), no walls, and a blocking entity at (2,0): `check_collision`
reports the blocking entity, but the `move_pos` it returns is the starting
position (0,0), not the last free rasterized point (1,0) strictly before the
entity — the loop never advances `last_pos` past the start (`last_pos = pos`
on line 629 of movement.rs). -/
theorem c2_code_evaluation :
    check_collision (Pos.mk 0 0) 2 0 dataC2 =
      { entity := some 5, blocked := none, move_pos := Pos.mk 0 0 }
    ∧ line_inclusive (Pos.mk 0 0) (Pos.mk 2 0) = [Pos.mk 1 0, Pos.mk 2 0]
    ∧ dataC2.has_blocking_entity (Pos.mk 1 0) = none
    ∧ dataC2.has_blocking_entity (Pos.mk 2 0) = some 5
    ∧ Pos.mk 0 0 ≠ Pos.mk 1 0 := by
  decide

/-- C3 (confirmed).  `calculate_move` never returns a movement whose
destination equals the current position of the moving entity while carrying
no attack: the final filter of the source rejects such results with none. -/
theorem c3_no_wasted_move (action : Direction) (reach : Reach) (entity_id : EntityId)
    (data : GameData) (m : Movement)
    (h : calculate_move action reach entity_id data = some m) (hatt : m.attack = none) :
    m.pos ≠ data.entities.pos entity_id := by
  simp only [calculate_move] at h
  split at h
  case _ moved heq =>
    split at h
    · exact absurd h (by simp)
    case _ hcond =>
      rw [heq] at h
      have hm : moved = m := by injection h
      subst hm
      intro heqpos
      exact hcond (And.intro hatt heqpos)
  case _ heq =>
    exact absurd h (by simp)

/-- C3 (witness): in the empty world a step right from (0,0) resolves to a
plain move to (1,0), which is distinct from the origin. -/
theorem c3_witness : Pos.mk 1 0 ≠ dataC3.entities.pos 0 :=
  c3_no_wasted_move Direction.Right (Reach.Single 1) 0 dataC3
    { pos := Pos.mk 1 0, typ := MoveType.Move, attack := none } (by decide) (by rfl)

/-- C4 (confirmed).  When a move is blocked by a wall and no entity: if the
mover runs and the obstruction is a short wall edge (not a blocked tile),
the planner returns a JumpWall movement to the far side, upgraded to carry a
Stab exactly when a blocking entity occupies the adjacent next position and
the mover can stab it; otherwise it returns a plain Move to the last free
position before the wall. -/
theorem c4_blocked_by_wall (entity_id : EntityId) (delta_pos : Pos) (blocked : Blocked)
    (data : GameData) :
    ((data.entities.move_mode entity_id = MoveMode.Run ∧ blocked.blocked_tile = false ∧
        blocked.wall_type = Wall.ShortWall) →
      entity_move_blocked_by_wall entity_id delta_pos blocked data =
        some { pos := blocked.end_pos, typ := MoveType.JumpWall,
               attack :=
                 match data.has_blocking_entity
                     (next_pos (data.entities.pos entity_id) delta_pos) with
                 | some other_id =>
                   if data.can_stab entity_id other_id = true then some (Attack.Stab other_id)
                   else none
                 | none => none })
    ∧ (¬(data.entities.move_mode entity_id = MoveMode.Run ∧ blocked.blocked_tile = false ∧
          blocked.wall_type = Wall.ShortWall) →
      entity_move_blocked_by_wall entity_id delta_pos blocked data =
        some (Movement.move_to blocked.start_pos MoveType.Move)) := by
  constructor
  · rintro ⟨h1, h2, h3⟩
    have h23 : blocked.blocked_tile = false ∧ blocked.wall_type = Wall.ShortWall := ⟨h2, h3⟩
    unfold entity_move_blocked_by_wall
    rw [if_pos h1, if_pos h23]
    simp only [if_true]
    cases hbe : data.has_blocking_entity (next_pos (data.entities.pos entity_id) delta_pos) with
    | none => simp [Movement.move_to]
    | some other_id =>
      by_cases hcs : data.can_stab entity_id other_id = true
      · simp [hcs, Movement.attack_]
      · simp [hcs, Movement.move_to]
  · intro hneg
    unfold entity_move_blocked_by_wall
    by_cases h1 : data.entities.move_mode entity_id = MoveMode.Run
    · rw [if_pos h1]
      by_cases h23 : blocked.blocked_tile = false ∧ blocked.wall_type = Wall.ShortWall
      · exact absurd ⟨h1, h23.1, h23.2⟩ hneg
      · rw [if_neg h23]
        simp
    · rw [if_neg h1]
      simp

/-- C4 (witness): the spec scenario — a running mover at (5,5) against a
short wall whose far side is (6,5), nothing to stab — yields JumpWall to
(6,5). -/
theorem c4_witness :
    entity_move_blocked_by_wall 0 (Pos.mk 1 0) blockedC4 dataC4 =
      some { pos := Pos.mk 6 5, typ := MoveType.JumpWall, attack := none } := by
  have h := (c4_blocked_by_wall 0 (Pos.mk 1 0) blockedC4 dataC4).1 (by decide)
  rw [h]
  decide

/-- C5 (counterexample).  With the mover at (0,0) running, a jumpable short
wall whose last free position is (1,0), and a blocking entity at (3,0): the
wall is the closer obstruction, so under the single-obstruction sub-rules the
outcome would be the wall rule result, a JumpWall to (2,0) with no attack;
the code instead returns a plain-typed Move next to the entity carrying a
Push attack — the two disagree. -/
theorem c5_counterexample :
    dist_sq (Pos.mk 0 0) (Pos.mk 3 0) > dist_sq (Pos.mk 0 0) blockedC5.start_pos
    ∧ entity_move_blocked_by_entity_and_wall 0 1 blockedC5 (Pos.mk 4 0) dataC5 =
        some { pos := Pos.mk 2 0, typ := MoveType.Move,
               attack := some (Attack.Push 1 (Pos.mk 4 0)) }
    ∧ entity_move_blocked_by_wall 0 (Pos.mk 4 0) blockedC5 dataC5 =
        some { pos := Pos.mk 2 0, typ := MoveType.JumpWall, attack := none }
    ∧ entity_move_blocked_by_entity_and_wall 0 1 blockedC5 (Pos.mk 4 0) dataC5 ≠
        entity_move_blocked_by_wall 0 (Pos.mk 4 0) blockedC5 dataC5 := by
  decide

/-- C5 (amended).  When a move is blocked by both a wall and an entity, the
closer obstruction by Euclidean distance decides: entity closer — attack the
entity (Stab if the mover can stab it, else Push), moving next to it; wall
closer but jumpable under Run — the same attack-next-to-entity movement;
wall closer and not jumpable — plain Move to the last free position before
the wall; exact distance tie — plain Move to the last free position before
the wall, with no attack and no jump. -/
theorem c5_amended (entity_id other_id : EntityId) (blocked : Blocked) (delta_pos : Pos)
    (data : GameData) :
    (dist_sq (data.entities.pos entity_id) (data.entities.pos other_id) <
        dist_sq (data.entities.pos entity_id) blocked.start_pos →
      entity_move_blocked_by_entity_and_wall entity_id other_id blocked delta_pos data =
        some (Movement.attack_
          (move_next_to (data.entities.pos entity_id) (data.entities.pos other_id))
          MoveType.Move
          (if data.can_stab entity_id other_id = true then Attack.Stab other_id
           else Attack.Push other_id delta_pos)))
    ∧ (dist_sq (data.entities.pos entity_id) blocked.start_pos <
          dist_sq (data.entities.pos entity_id) (data.entities.pos other_id) →
        (data.entities.move_mode entity_id = MoveMode.Run ∧ blocked.blocked_tile = false ∧
          blocked.wall_type = Wall.ShortWall) →
      entity_move_blocked_by_entity_and_wall entity_id other_id blocked delta_pos data =
        some (Movement.attack_
          (move_next_to (data.entities.pos entity_id) (data.entities.pos other_id))
          MoveType.Move
          (if data.can_stab entity_id other_id = true then Attack.Stab other_id
           else Attack.Push other_id delta_pos)))
    ∧ (dist_sq (data.entities.pos entity_id) blocked.start_pos <
          dist_sq (data.entities.pos entity_id) (data.entities.pos other_id) →
        ¬(data.entities.move_mode entity_id = MoveMode.Run ∧ blocked.blocked_tile = false ∧
          blocked.wall_type = Wall.ShortWall) →
      entity_move_blocked_by_entity_and_wall entity_id other_id blocked delta_pos data =
        some (Movement.move_to blocked.start_pos MoveType.Move))
    ∧ (dist_sq (data.entities.pos entity_id) (data.entities.pos other_id) =
          dist_sq (data.entities.pos entity_id) blocked.start_pos →
      entity_move_blocked_by_entity_and_wall entity_id other_id blocked delta_pos data =
        some (Movement.move_to blocked.start_pos MoveType.Move)) := by
  refine ⟨?_, ?_, ?_, ?_⟩
  · intro hlt
    unfold entity_move_blocked_by_entity_and_wall
    rw [if_pos hlt]
  · intro hgt hjump
    have h23 : blocked.blocked_tile = false ∧ blocked.wall_type = Wall.ShortWall :=
      ⟨hjump.2.1, hjump.2.2⟩
    unfold entity_move_blocked_by_entity_and_wall
    rw [if_neg (by omega), if_pos (by omega), if_pos hjump.1, if_pos h23]
    simp only [if_true]
  · intro hgt hneg
    unfold entity_move_blocked_by_entity_and_wall
    rw [if_neg (by omega), if_pos (by omega)]
    by_cases h1 : data.entities.move_mode entity_id = MoveMode.Run
    · rw [if_pos h1]
      by_cases h23 : blocked.blocked_tile = false ∧ blocked.wall_type = Wall.ShortWall
      · exact absurd (And.intro h1 (And.intro h23.1 h23.2)) hneg
      · rw [if_neg h23]
        simp
    · rw [if_neg h1]
      simp
  · intro heq
    unfold entity_move_blocked_by_entity_and_wall
    rw [if_neg (by omega), if_neg (by omega)]

/-- C5 (witness for the amended theorem): the exact-tie case — wall and
entity both at squared distance 9 — resolves to a plain Move up to the last
free position (3,0). -/
theorem c5_amended_witness :
    entity_move_blocked_by_entity_and_wall 0 1 blockedC5tie (Pos.mk 4 0) dataC5 =
      some { pos := Pos.mk 3 0, typ := MoveType.Move, attack := none } := by
  have h := (c5_amended 0 1 blockedC5tie (Pos.mk 4 0) dataC5).2.2.2 (by decide)
  rw [h]
  decide

/-- C1 (code evaluation at the failing input).  Monster at (3,2), target at
(5,2), both reaches Single(1), full visibility, no walls, and one blocked
tile at (4,2): the target is alive, cannot be hit directly, and no wall
separates the pair, yet the candidate list the AI considers is exactly the
blocked tile (4,2), while the unblocked in-bounds tile (4,3) from which the
attack would hit is excluded — the source filter on line 74 of ai.rs keeps
the positions for which `is_blocked_tile` is true. -/
theorem c1_code_evaluation :
    (dataC1.objects 1).alive = true
    ∧ ai_can_hit_target dataC1.map (Pos.mk 3 2) (Pos.mk 5 2) (Reach.Single 1) = none
    ∧ dataC1.map.is_blocked_by_wall (Pos.mk 3 2) 2 0 = none
    ∧ ai_attack_positions dataC1 (Pos.mk 3 2) (Pos.mk 5 2) (Reach.Single 1) (Reach.Single 1) =
        [Pos.mk 4 2]
    ∧ dataC1.is_blocked_tile (Pos.mk 4 2) = true
    ∧ dataC1.is_blocked_tile (Pos.mk 4 3) = false
    ∧ (ai_can_hit_target dataC1.map (Pos.mk 4 3) (Pos.mk 5 2) (Reach.Single 1)).isSome = true
    ∧ dataC1.map.is_within_bounds (Pos.mk 4 3) = true
    ∧ Pos.mk 4 3 ∉
        ai_attack_positions dataC1 (Pos.mk 3 2) (Pos.mk 5 2) (Reach.Single 1) (Reach.Single 1) := by
  decide

/-- C9 (confirmed).  For an AI-controlled entity whose position lies outside
the grid bounds, `basic_ai_take_turn` returns the no-op action for every
behavior state, provided a player exists (a missing player is a fatal
precondition failure by spec section 7, independent of bounds). -/
theorem c9_oob_noop (monster_handle : EntityId) (data : AiGameData)
    (player_handle : EntityId) (hp : data.find_player = some player_handle)
    (hoob : data.map.is_within_bounds (data.objects monster_handle).pos = false) :
    basic_ai_take_turn monster_handle data = some AiAction.NoAction := by
  unfold basic_ai_take_turn
  rw [hp]
  simp only [hoob, Bool.false_eq_true, if_false]
  rfl

/-- C9 (witness): the monster stranded at (-1,0) on a 10 by 10 grid takes no
action. -/
theorem c9_witness : basic_ai_take_turn 0 dataC9 = some AiAction.NoAction :=
  c9_oob_noop 0 dataC9 1 (by rfl) (by decide)

/-- C10 (confirmed).  `Reach::diag` and `Reach::horiz` both construct the
`Single` variant, never `Diag` or `Horiz`, so reaches built through them
permit all eight directions. -/
theorem c10_constructors (d : Nat) :
    Reach.diag d = Reach.Single d ∧ Reach.horiz d = Reach.Single d
    ∧ ∀ dir : Direction, ((Reach.diag d).move_with_reach dir).isSome = true
        ∧ ((Reach.horiz d).move_with_reach dir).isSome = true := by
  refine ⟨rfl, rfl, ?_⟩
  intro dir
  cases dir <;> constructor <;> rfl

/-- C10 (witness at distance 3). -/
theorem c10_witness :
    Reach.diag 3 = Reach.Single 3 ∧ Reach.horiz 3 = Reach.Single 3
    ∧ ∀ dir : Direction, ((Reach.diag 3).move_with_reach dir).isSome = true
        ∧ ((Reach.horiz 3).move_with_reach dir).isSome = true :=
  c10_constructors 3
